import Mathlib

/-!
Verification development for the IANA registry code generator
(`src/code.google.com/p/go.net/ipv4/gen.go`).

The program fetches two IANA XML registries (ICMPv4 parameters, protocol
numbers), canonicalizes the textual labels into identifier-safe names via
fixed substring replacements, and prints constant blocks and a lookup table.

Strings are modelled as `List Char`.  The Go standard-library string
operations used by the program (`strings.Contains`, `strings.Split`,
`strings.Join`, `strings.TrimSpace`, `strings.NewReplacer` / `Replacer.Replace`,
`strings.Replace`, `strings.ToLower`, `strconv.Atoi`) are embedded below,
faithful to their documented semantics on the ASCII/Latin-1 text the
registries contain.
-/

/-- Whitespace test modelling `unicode.IsSpace` on the Latin-1 range:
space, tab, newline, vertical tab, form feed, carriage return, NEL, NBSP. -/
def isSpaceChar (c : Char) : Bool :=
  c == ' ' || c == '\t' || c == '\n' || c == Char.ofNat 11 ||
  c == Char.ofNat 12 || c == '\r' || c == Char.ofNat 133 || c == Char.ofNat 160

/-- Models `strings.TrimSpace`: drop leading and trailing whitespace. -/
def trimSpace (s : List Char) : List Char :=
  ((s.dropWhile isSpaceChar).reverse.dropWhile isSpaceChar).reverse

/-- Models `strings.Contains s pat`: some suffix of `s` starts with `pat`. -/
def containsSub (s pat : List Char) : Bool :=
  s.tails.any (fun t => List.isPrefixOf pat t)

/-- Models `strings.Split s "\n"`: split at every newline; the empty string
yields one empty part. -/
def splitNl : List Char → List (List Char)
  | [] => [[]]
  | c :: cs =>
    if c == '\n' then [] :: splitNl cs
    else
      match splitNl cs with
      | [] => [[c]]
      | p :: ps => (c :: p) :: ps

/-- Models `strings.Join ss " "`. -/
def joinSpace (ss : List (List Char)) : List Char :=
  List.intercalate [' '] ss

/-- One `(old, new)` pair of a `strings.Replacer`. -/
structure SubRule where
  pat : List Char
  rep : List Char
deriving DecidableEq, Repr

/-- At the current position, the first rule (in argument order) whose
pattern matches, as `strings.Replacer` resolves competing patterns. -/
def findRuleAt (rules : List SubRule) (s : List Char) : Option SubRule :=
  rules.find? (fun r => List.isPrefixOf r.pat s)

/-- The scanning loop of `strings.Replacer.Replace`, structurally recursive
on a fuel argument; every step consumes at least one character, so fuel equal
to the input length never runs out. -/
def replaceGoFuel (rules : List SubRule) : Nat → List Char → List Char
  | _, [] => []
  | 0, s => s
  | fuel + 1, c :: cs =>
    match findRuleAt rules (c :: cs) with
    | some r => r.rep ++ replaceGoFuel rules fuel (cs.drop (r.pat.length - 1))
    | none => c :: replaceGoFuel rules fuel cs

/-- Models `strings.Replacer.Replace` built by `strings.NewReplacer` (all
patterns non-empty): a single left-to-right pass; at each position the first
matching rule is applied, its replacement is emitted without being rescanned,
and scanning resumes after the matched pattern. -/
def replaceGo (rules : List SubRule) (s : List Char) : List Char :=
  replaceGoFuel rules s.length s

/-- The scanning loop of `strings.Replace`, structurally recursive on a fuel
argument; fuel equal to the input length never runs out. -/
def replaceAllFuel (pat rep : List Char) : Nat → List Char → List Char
  | _, [] => []
  | 0, s => s
  | fuel + 1, c :: cs =>
    if List.isPrefixOf pat (c :: cs) then
      rep ++ replaceAllFuel pat rep fuel (cs.drop (pat.length - 1))
    else
      c :: replaceAllFuel pat rep fuel cs

/-- Models `strings.Replace s pat rep -1` for a non-empty `pat`: replace all
non-overlapping occurrences, scanning left to right. -/
def replaceAll (pat rep : List Char) (s : List Char) : List Char :=
  replaceAllFuel pat rep s.length s

/-- Sequential rewriting as the specification describes it: each rule is
applied to the whole string produced by the previous rule. -/
def seqRewrite (rules : List SubRule) (s : List Char) : List Char :=
  rules.foldl (fun t r => replaceAll r.pat r.rep t) s

/-- Models `strings.ToLower` on ASCII text (the registry labels): lowercase
each character. -/
def toLowerGo (s : List Char) : List Char :=
  s.map Char.toLower

/-- 2^63 - 1, the largest value of Go's 64-bit `int`. -/
def intMax64 : Int := 9223372036854775807

/-- -2^63, the smallest value of Go's 64-bit `int`. -/
def intMin64 : Int := -9223372036854775808

/-- Accumulate decimal digits; `none` on the first non-digit character. -/
def digitsToNat : List Char → Nat → Option Nat
  | [], acc => some acc
  | c :: cs, acc =>
    if c.isDigit then digitsToNat cs (acc * 10 + (c.toNat - 48)) else none

/-- Strip one leading sign character, remembering whether it was a minus. -/
def splitSign : List Char → Bool × List Char
  | '-' :: r => (true, r)
  | '+' :: r => (false, r)
  | s => (false, s)

/-- Models the `int` value returned by `strconv.Atoi` on a 64-bit platform
when its error is discarded: the signed decimal value for a well-formed
numeral, clamped to `[intMin64, intMax64]` on range overflow, and `0` on any
syntax error (empty string, bare sign, or any non-digit character). -/
def goAtoi (s : List Char) : Int :=
  match splitSign s with
  | (neg, ds) =>
    match ds with
    | [] => 0
    | _ :: _ =>
      match digitsToNat ds 0 with
      | none => 0
      | some n =>
        let v : Int := if neg then -(n : Int) else (n : Int)
        if v > intMax64 then intMax64
        else if v < intMin64 then intMin64
        else v

/-- Decides whether a string is a syntactically valid decimal integer for
`strconv.Atoi`: an optional sign followed by one or more digits. -/
def intSyntaxOk (s : List Char) : Bool :=
  match splitSign s with
  | (_, []) => false
  | (_, ds) => ds.all Char.isDigit

/-- A `{value, description}` record of an ICMPv4 sub-registry. -/
structure icmpRecord where
  Value : List Char
  Descr : List Char
deriving DecidableEq, Repr

/-- A sub-registry of the ICMPv4 parameters document. -/
structure icmpSubRegistry where
  Title : List Char
  Records : List icmpRecord
deriving DecidableEq, Repr

/-- The decoded ICMPv4 parameters document (`icmpv4Parameters` in gen.go). -/
structure icmpv4Parameters where
  Title : List Char
  Updated : List Char
  Registries : List icmpSubRegistry
deriving DecidableEq, Repr

/-- A canonicalized ICMPv4 record (`canonICMPv4ParamRecord` in gen.go). -/
structure canonICMPv4ParamRecord where
  OrigDescr : List Char
  Descr : List Char
  Value : Int
deriving DecidableEq, Repr

/-- The Go zero value of `canonICMPv4ParamRecord`, left in place for records
skipped by the placeholder filter. -/
def zeroCanonICMP : canonICMPv4ParamRecord := ⟨[], [], 0⟩

/-- The placeholder filter of `icmpv4Parameters.escape`: the description
contains one of the five literal (case-sensitive) markers. -/
def icmpFilterHit (d : List Char) : Bool :=
  containsSub d ("Reserved".data) || containsSub d ("Unassigned".data) ||
  containsSub d ("Deprecated".data) || containsSub d ("Experiment".data) ||
  containsSub d ("experiment".data)

/-- The replacer built in `icmpv4Parameters.escape`, in argument order. -/
def icmpReplacer : List SubRule :=
  [⟨"Messages".data, "".data⟩, ⟨"Message".data, "".data⟩,
   ⟨"ICMP".data, "".data⟩, ⟨"+".data, "P".data⟩,
   ⟨"-".data, "".data⟩, ⟨"/".data, "".data⟩,
   ⟨".".data, "".data⟩, ⟨" ".data, "".data⟩]

/-- Join a multi-line description with single spaces, as the escape loop
does: split at newlines, and join with spaces only when there are at least
two lines. -/
def joinLinesICMP (d : List Char) : List Char :=
  let ss := splitNl d
  if ss.length > 1 then joinSpace ss else ss.headD []

/-- The body of the record loop in `icmpv4Parameters.escape`: filtered
records keep the zero value, others get the trimmed joined description, its
replacement image, and the parsed value. -/
def escapeICMPRecord (pr : icmpRecord) : canonICMPv4ParamRecord :=
  if icmpFilterHit pr.Descr then zeroCanonICMP
  else
    let s := trimSpace (joinLinesICMP pr.Descr)
    ⟨s, replaceGo icmpReplacer s, goAtoi pr.Value⟩

/-- The sub-registry test of `icmpv4Parameters.escape`: the title contains
"Type" or "type" (exactly these two casings). -/
def icmpTypeRegPred (r : icmpSubRegistry) : Bool :=
  containsSub r.Title ("Type".data) || containsSub r.Title ("type".data)

/-- `icmpv4Parameters.escape`: select the first sub-registry whose title
contains "Type" or "type"; `[]` when none matches, otherwise one
canonical record per raw record of that sub-registry. -/
def icmpv4Parameters.escape (icp : icmpv4Parameters) : List canonICMPv4ParamRecord :=
  match icp.Registries.find? icmpTypeRegPred with
  | none => []
  | some reg => reg.Records.map escapeICMPRecord

/-- The records emitted as constants by `parseICMPv4Parameters`: the loop
skips records whose canonical description is empty. -/
def icmpConstEntries : List canonICMPv4ParamRecord → List canonICMPv4ParamRecord
  | [] => []
  | pr :: prs =>
    if pr.Descr.isEmpty then icmpConstEntries prs
    else pr :: icmpConstEntries prs

/-- The `icmpTypes` lookup-table entries emitted by `parseICMPv4Parameters`:
for each record with non-empty canonical description, its value mapped to
the lowercased original description. -/
def icmpTypesEntries : List canonICMPv4ParamRecord → List (Int × List Char)
  | [] => []
  | pr :: prs =>
    if pr.Descr.isEmpty then icmpTypesEntries prs
    else (pr.Value, toLowerGo pr.OrigDescr) :: icmpTypesEntries prs

/-- A `{value, name, description}` record of the protocol-numbers registry. -/
structure protoRecord where
  Value : List Char
  Name : List Char
  Descr : List Char
deriving DecidableEq, Repr

/-- The decoded protocol-numbers document (`protocolNumbers` in gen.go). -/
structure protocolNumbers where
  Title : List Char
  Updated : List Char
  RegTitle : List Char
  Note : List Char
  Records : List protoRecord
deriving DecidableEq, Repr

/-- A canonicalized protocol record (`canonProtocolRecord` in gen.go). -/
structure canonProtocolRecord where
  OrigName : List Char
  Name : List Char
  Descr : List Char
  Value : Int
deriving DecidableEq, Repr

/-- The replacer built in `protocolNumbers.escape`, in argument order. -/
def protoReplacer : List SubRule :=
  [⟨"-in-".data, "in".data⟩, ⟨"-within-".data, "within".data⟩,
   ⟨"-over-".data, "over".data⟩, ⟨"+".data, "P".data⟩,
   ⟨"-".data, "".data⟩, ⟨"/".data, "".data⟩,
   ⟨".".data, "".data⟩, ⟨" ".data, "".data⟩]

/-- The body of the record loop in `protocolNumbers.escape`: the switch on
the raw (untrimmed) name picks the two literal exceptions, the default
branch applies the replacer to the trimmed name; description lines are
trimmed individually and joined with spaces when there are at least two. -/
def escapeProtoRecord (pr : protoRecord) : canonProtocolRecord :=
  let s := trimSpace pr.Name
  let name :=
    if pr.Name = "ISIS over IPv4".data then "ISIS".data
    else if pr.Name = "manet".data then "MANET".data
    else replaceGo protoReplacer s
  let ss := (splitNl pr.Descr).map trimSpace
  let d := if ss.length > 1 then joinSpace ss else ss.headD []
  ⟨pr.Name, name, d, goAtoi pr.Value⟩

/-- `protocolNumbers.escape`: one canonical record per raw record. -/
def protocolNumbers.escape (pn : protocolNumbers) : List canonProtocolRecord :=
  pn.Records.map escapeProtoRecord

/-- The synthetic record prepended in `parseProtocolNumbers` (its `OrigName`
keeps the Go zero value). -/
def ipPseudoRecord : canonProtocolRecord :=
  ⟨[], "IP".data, "IPv4 encapsulation, pseudo protocol number".data, 0⟩

/-- The record list `parseProtocolNumbers` iterates over: the synthetic IP
record prepended to the canonicalized set. -/
def protocolPrs (pn : protocolNumbers) : List canonProtocolRecord :=
  ipPseudoRecord :: pn.escape

/-- The records emitted as constants by `parseProtocolNumbers`: the loop
skips records whose canonical name is empty. -/
def protoConstEntries : List canonProtocolRecord → List canonProtocolRecord
  | [] => []
  | pr :: prs =>
    if pr.Name.isEmpty then protoConstEntries prs
    else pr :: protoConstEntries prs

/-- Decimal digits of a natural number, for the `%d` and `%v` verbs. -/
def natChars (n : Nat) : List Char :=
  Nat.toDigits 10 n

/-- Decimal rendering of an integer, as `fmt.Fprintf`'s `%d` prints it. -/
def intChars (i : Int) : List Char :=
  if i < 0 then '-' :: natChars (-i).toNat else natChars i.toNat

/-- One hexadecimal digit (lowercase). -/
def hexDigit (n : Nat) : Char :=
  if n < 10 then Char.ofNat (48 + n) else Char.ofNat (87 + n)

/-- Two lowercase hex digits. -/
def hex2 (n : Nat) : List Char :=
  [hexDigit (n / 16 % 16), hexDigit (n % 16)]

/-- Four lowercase hex digits. -/
def hex4 (n : Nat) : List Char :=
  [hexDigit (n / 4096 % 16), hexDigit (n / 256 % 16),
   hexDigit (n / 16 % 16), hexDigit (n % 16)]

/-- Escape of one character under `strconv.Quote`, exact for ASCII input
(the registry text); non-ASCII runes are conservatively escaped rather than
testing `unicode.IsPrint`. -/
def quoteCharGo (c : Char) : List Char :=
  if c = '"' then ['\\', '"']
  else if c = '\\' then ['\\', '\\']
  else if c = Char.ofNat 7 then ['\\', 'a']
  else if c = Char.ofNat 8 then ['\\', 'b']
  else if c = Char.ofNat 12 then ['\\', 'f']
  else if c = '\n' then ['\\', 'n']
  else if c = '\r' then ['\\', 'r']
  else if c = '\t' then ['\\', 't']
  else if c = Char.ofNat 11 then ['\\', 'v']
  else if 32 ≤ c.toNat ∧ c.toNat < 127 then [c]
  else if c.toNat < 256 then ['\\', 'x'] ++ hex2 c.toNat
  else if c.toNat < 65536 then ['\\', 'u'] ++ hex4 c.toNat
  else ['\\', 'U'] ++ hex4 (c.toNat / 65536) ++ hex4 (c.toNat % 65536)

/-- Models `strconv.Quote` (the `%q` verb) on the ASCII registry text. -/
def quoteGo (s : List Char) : List Char :=
  '"' :: (s.flatMap quoteCharGo) ++ ['"']

/-- The registry header comment both parse functions print. -/
def headerComment (title updated : List Char) : List Char :=
  "// ".data ++ title ++ ", Updated: ".data ++ updated ++ ['\n']

/-- The constant lines of `parseICMPv4Parameters`, with its skip of records
whose canonical description is empty. -/
def icmpConstText : List canonICMPv4ParamRecord → List Char
  | [] => []
  | pr :: prs =>
    if pr.Descr.isEmpty then icmpConstText prs
    else
      "ICMPType".data ++ pr.Descr ++ " ICMPType = ".data ++ intChars pr.Value ++
        "// ".data ++ pr.OrigDescr ++ ['\n'] ++ icmpConstText prs

/-- The `icmpTypes` map lines of `parseICMPv4Parameters`, with the same
skip. -/
def icmpTypesText : List canonICMPv4ParamRecord → List Char
  | [] => []
  | pr :: prs =>
    if pr.Descr.isEmpty then icmpTypesText prs
    else
      intChars pr.Value ++ ": ".data ++ quoteGo (toLowerGo pr.OrigDescr) ++
        ",\n".data ++ icmpTypesText prs

/-- The full text `parseICMPv4Parameters` writes after a successful decode
(after which it returns a nil error). -/
def parseICMPText (icp : icmpv4Parameters) : List Char :=
  headerComment icp.Title icp.Updated ++ "const (\n".data ++
    icmpConstText icp.escape ++ ")\n\n".data ++
    headerComment icp.Title icp.Updated ++
    "var icmpTypes = map[ICMPType]string\x7b\n".data ++
    icmpTypesText icp.escape ++ "\x7d\n".data

/-- The constant lines of `parseProtocolNumbers`, with its skip of records
whose canonical name is empty; the comment falls back to the original name
when the description is empty. -/
def protoConstText : List canonProtocolRecord → List Char
  | [] => []
  | pr :: prs =>
    if pr.Name.isEmpty then protoConstText prs
    else
      "ianaProtocol".data ++ pr.Name ++ " = ".data ++ intChars pr.Value ++
        "// ".data ++ (if pr.Descr.isEmpty then pr.OrigName else pr.Descr) ++
        ['\n'] ++ protoConstText prs

/-- The full text `parseProtocolNumbers` writes after a successful decode
(after which it returns a nil error). -/
def parseProtoText (pn : protocolNumbers) : List Char :=
  headerComment pn.Title pn.Updated ++ "const (\n".data ++
    protoConstText (protocolPrs pn) ++ ")\n".data

/-- The fixed generated-file header `main` writes before any registry. -/
def genHeader : List Char :=
  "// go run gen.go\n// GENERATED BY THE COMMAND ABOVE; DO NOT EDIT\n\npackage ipv4\n\n".data

/-- The ICMP registry URL of the `registries` table. -/
def icmpURL : List Char :=
  "http://www.iana.org/assignments/icmp-parameters/icmp-parameters.xml".data

/-- The protocol-numbers registry URL of the `registries` table. -/
def protoURL : List Char :=
  "http://www.iana.org/assignments/protocol-numbers/protocol-numbers.xml".data

/-- Outcome of `http.Get` followed by `xml.Decode` for one registry, the
environment-supplied part of a run: a transport error, or a response with a
status code and (when read) the decode result of its body. -/
inductive FetchOutcome (α : Type) where
  | transportError (msg : List Char)
  | response (status : Nat) (decoded : Except (List Char) α)

/-- Whether the fetch/decode stage of one registry fails. -/
def fetchFails {α : Type} : FetchOutcome α → Bool
  | .transportError _ => true
  | .response st dec =>
    if st ≠ 200 then true
    else
      match dec with
      | .error _ => true
      | .ok _ => false

/-- One iteration of `main`'s registry loop: a transport error or a status
other than 200 or a decode error yields the stderr line and exit; otherwise
the parse function's output text. -/
def runRegistry {α : Type} (url : List Char) (parseText : α → List Char) :
    FetchOutcome α → Except (List Char) (List Char)
  | .transportError m => .error (m ++ ['\n'])
  | .response st dec =>
    if st ≠ 200 then
      .error ("got HTTP status code ".data ++ natChars st ++ " for ".data ++
        url ++ ['\n'])
    else
      match dec with
      | .error m => .error (m ++ ['\n'])
      | .ok a => .ok (parseText a)

/-- Observable result of a run: exit status, standard output, standard
error. -/
structure RunResult where
  exitCode : Nat
  stdout : List Char
  stderr : List Char
deriving DecidableEq, Repr

/-- `main`: process the two registries in order, appending each text block
plus a blank separator to the buffer after the fixed header; on any stage
error exit with status 1 having written nothing to stdout; otherwise run the
source formatter (`format.Source`, supplied as an oracle) on the whole
buffer and write its result to stdout. -/
def mainRun (icmpIn : FetchOutcome icmpv4Parameters)
    (protoIn : FetchOutcome protocolNumbers)
    (fmtSrc : List Char → Except (List Char) (List Char)) : RunResult :=
  match runRegistry icmpURL parseICMPText icmpIn with
  | .error m => ⟨1, [], m⟩
  | .ok b1 =>
    match runRegistry protoURL parseProtoText protoIn with
    | .error m => ⟨1, [], m⟩
    | .ok b2 =>
      match fmtSrc (genHeader ++ b1 ++ ['\n'] ++ b2 ++ ['\n']) with
      | .error m => ⟨1, [], m ++ ['\n']⟩
      | .ok out => ⟨0, out, []⟩

/-!
Concrete registry documents used by counterexamples and witnesses.
-/

/-- A type sub-registry with a negative value string and a value string that
overflows 64-bit int. -/
def regBadValues : icmpSubRegistry :=
  ⟨"ICMP Type Numbers".data,
   [⟨"-5".data, "Echo".data⟩,
    ⟨"99999999999999999999".data, "Timestamp".data⟩]⟩

/-- An ICMP document holding `regBadValues`. -/
def icpBadValues : icmpv4Parameters :=
  ⟨"ICMP Parameters".data, "2013-04-19".data, [regBadValues]⟩

/-- A type sub-registry whose single description shows the difference
between single-pass and sequential rewriting. -/
def regMessag : icmpSubRegistry :=
  ⟨"ICMP Type Numbers".data, [⟨"1".data, "MessagMessageses".data⟩]⟩

/-- An ICMP document holding `regMessag`. -/
def icpMessag : icmpv4Parameters :=
  ⟨"ICMP Parameters".data, "2013-04-19".data, [regMessag]⟩

/-- An ICMP document whose only sub-registry title contains "type" only in
the casing "TYPE". -/
def icpUpperType : icmpv4Parameters :=
  ⟨"ICMP Parameters".data, "2013-04-19".data,
   [⟨"TYPE codes".data, [⟨"8".data, "Echo".data⟩]⟩]⟩

/-- A type sub-registry with one plain record. -/
def regTypeEcho : icmpSubRegistry :=
  ⟨"ICMP Type Numbers".data, [⟨"8".data, "Echo".data⟩]⟩

/-- An ICMP document where the matching sub-registry is preceded by a
non-matching one. -/
def icpTwoRegs : icmpv4Parameters :=
  ⟨"ICMP Parameters".data, "2013-04-19".data,
   [⟨"Code Fields".data, []⟩, regTypeEcho]⟩

/-- An ICMP document whose record description is the case-variant
"EXPERIMENT". -/
def icpExperimentCaps : icmpv4Parameters :=
  ⟨"ICMP Parameters".data, "2013-04-19".data,
   [⟨"ICMP Type Numbers".data, [⟨"1".data, "EXPERIMENT".data⟩]⟩]⟩

/-- A type sub-registry mixing a filtered placeholder record and a plain
record. -/
def regReservedMix : icmpSubRegistry :=
  ⟨"ICMP Type Numbers".data,
   [⟨"2".data, "Reserved".data⟩, ⟨"8".data, "Echo".data⟩]⟩

/-- An ICMP document holding `regReservedMix`. -/
def icpReservedMix : icmpv4Parameters :=
  ⟨"ICMP Parameters".data, "2013-04-19".data, [regReservedMix]⟩

/-- A type sub-registry holding the spec example record. -/
def regDestUnreach : icmpSubRegistry :=
  ⟨"ICMP Type Numbers".data,
   [⟨"3".data, "Destination Unreachable".data⟩]⟩

/-- An ICMP document holding `regDestUnreach`. -/
def icpDestUnreach : icmpv4Parameters :=
  ⟨"ICMP Parameters".data, "2013-04-19".data, [regDestUnreach]⟩

/-- An ICMP document with no sub-registry whose title contains "Type" or
"type". -/
def icpNoType : icmpv4Parameters :=
  ⟨"ICMP Parameters".data, "2013-04-19".data,
   [⟨"Code Fields".data, [⟨"1".data, "Echo".data⟩]⟩]⟩

/-- A protocol document with no records. -/
def pnEmpty : protocolNumbers :=
  ⟨"Protocol Numbers".data, "2013-02-17".data,
   "Assigned Internet Protocol Numbers".data, [], []⟩

/-- A protocol record whose name is "manet" only after trimming. -/
def prManetSpaced : protoRecord :=
  ⟨"138".data, " manet ".data, []⟩

/-- A protocol document holding `prManetSpaced`. -/
def pnManet : protocolNumbers :=
  ⟨"Protocol Numbers".data, "2013-02-17".data,
   "Assigned Internet Protocol Numbers".data, [], [prManetSpaced]⟩

/-- A failing fetch outcome for the ICMP registry. -/
def fetchErrICMP : FetchOutcome icmpv4Parameters :=
  .transportError ("connection refused".data)

/-- A successful fetch-and-decode outcome for the protocol registry. -/
def okProto : FetchOutcome protocolNumbers :=
  .response 200 (.ok pnEmpty)

/-- A formatter oracle that always succeeds and returns its input. -/
def fmtID : List Char → Except (List Char) (List Char) :=
  fun b => .ok b

/-- A successful fetch-and-decode outcome for the ICMP registry. -/
def okICMP : FetchOutcome icmpv4Parameters :=
  .response 200 (.ok icpNoType)

/-- A formatter oracle that fails, in particular on the run's assembled
buffer. -/
def fmtFail : List Char → Except (List Char) (List Char) :=
  fun _ => .error ("format error".data)

/-!
Shared helper lemmas.
-/

/-- A digit accumulation over a list containing a non-digit yields `none`. -/
theorem digitsToNat_eq_none : ∀ (ds : List Char) (acc : Nat),
    ds.all Char.isDigit = false → digitsToNat ds acc = none
  | [], _, h => by simp at h
  | c :: cs, acc, h => by
    by_cases hc : c.isDigit
    · have hcs : cs.all Char.isDigit = false := by simpa [hc] using h
      simp [digitsToNat, hc, digitsToNat_eq_none cs _ hcs]
    · simp [digitsToNat, hc]

/-- A string failing the Atoi syntax check parses to zero. -/
theorem goAtoi_of_bad_syntax (s : List Char) (h : intSyntaxOk s = false) :
    goAtoi s = 0 := by
  rcases hss : splitSign s with ⟨neg, ds⟩
  cases ds with
  | nil => simp [goAtoi, hss]
  | cons d tl =>
    have hall : (d :: tl).all Char.isDigit = false := by
      simpa [intSyntaxOk, hss] using h
    simp [goAtoi, hss, digitsToNat_eq_none (d :: tl) 0 hall]

/-- The value Atoi returns always lies in the 64-bit int range. -/
theorem goAtoi_bounds (s : List Char) :
    intMin64 ≤ goAtoi s ∧ goAtoi s ≤ intMax64 := by
  rcases hss : splitSign s with ⟨neg, ds⟩
  cases ds with
  | nil =>
    have h0 : goAtoi s = 0 := by simp [goAtoi, hss]
    rw [h0]
    exact ⟨by decide, by decide⟩
  | cons d tl =>
    cases hdg : digitsToNat (d :: tl) 0 with
    | none =>
      have h0 : goAtoi s = 0 := by simp [goAtoi, hss, hdg]
      rw [h0]
      exact ⟨by decide, by decide⟩
    | some n =>
      simp only [goAtoi, hss, hdg, intMin64, intMax64]
      split_ifs <;> constructor <;> omega

/-- `find?` on a list split as `pre ++ x :: post`, with the predicate false
on all of `pre` and true at `x`, returns `x`: first-match semantics. -/
theorem find?_append_first {α : Type} (p : α → Bool) (x : α) (post : List α) :
    ∀ pre : List α, (∀ r ∈ pre, p r = false) → p x = true →
      (pre ++ x :: post).find? p = some x
  | [], _, hx => by simp [List.find?_cons, hx]
  | a :: l, hpre, hx => by
    have ha : p a = false := hpre a (by simp)
    simp only [List.cons_append, List.find?_cons, ha]
    exact find?_append_first p x post l (fun r hr => hpre r (by simp [hr])) hx

/-- `getD` commutes with `map` when the default is in the image. -/
theorem getD_map_comm {α β : Type} (f : α → β) (d : α) :
    ∀ (l : List α) (i : Nat), (l.map f).getD i (f d) = f (l.getD i d)
  | [], i => by simp [List.getD]
  | a :: t, 0 => by simp [List.getD]
  | a :: t, i + 1 => by
    simp only [List.map_cons, List.getD_cons_succ]
    exact getD_map_comm f d t i

/-- Every emitted ICMP constant record has a non-empty canonical
description. -/
theorem mem_icmpConstEntries : ∀ (prs : List canonICMPv4ParamRecord)
    (e : canonICMPv4ParamRecord), e ∈ icmpConstEntries prs → e.Descr ≠ []
  | [], e, h => by simp [icmpConstEntries] at h
  | pr :: prs, e, h => by
    by_cases hd : pr.Descr.isEmpty
    · exact mem_icmpConstEntries prs e (by simpa [icmpConstEntries, hd] using h)
    · rcases (by simpa [icmpConstEntries, hd] using h :
        e = pr ∨ e ∈ icmpConstEntries prs) with he | he
      · rw [he]
        simpa using hd
      · exact mem_icmpConstEntries prs e he

/-- Every emitted protocol constant record has a non-empty canonical name. -/
theorem mem_protoConstEntries : ∀ (prs : List canonProtocolRecord)
    (e : canonProtocolRecord), e ∈ protoConstEntries prs → e.Name ≠ []
  | [], e, h => by simp [protoConstEntries] at h
  | pr :: prs, e, h => by
    by_cases hd : pr.Name.isEmpty
    · exact mem_protoConstEntries prs e (by simpa [protoConstEntries, hd] using h)
    · rcases (by simpa [protoConstEntries, hd] using h :
        e = pr ∨ e ∈ protoConstEntries prs) with he | he
      · rw [he]
        simpa using hd
      · exact mem_protoConstEntries prs e he

/-- The lookup-table entries are exactly the emitted constant records,
mapped to value and lowercased original description. -/
theorem icmpTypesEntries_eq_map : ∀ prs : List canonICMPv4ParamRecord,
    icmpTypesEntries prs =
      (icmpConstEntries prs).map (fun pr => (pr.Value, toLowerGo pr.OrigDescr))
  | [] => rfl
  | pr :: prs => by
    by_cases hd : pr.Descr.isEmpty <;>
      simp [icmpTypesEntries, icmpConstEntries, hd, icmpTypesEntries_eq_map prs]

/-- A record hit by the placeholder filter canonicalizes to the zero
record. -/
theorem escapeICMPRecord_of_hit (r : icmpRecord)
    (hf : icmpFilterHit r.Descr = true) :
    escapeICMPRecord r = zeroCanonICMP := by
  simp [escapeICMPRecord, hf]

/-- Filter-hit records contribute nothing to the emitted constants. -/
theorem icmpConstEntries_filter_hit : ∀ rs : List icmpRecord,
    icmpConstEntries (rs.map escapeICMPRecord) =
      icmpConstEntries
        ((rs.filter (fun r => !icmpFilterHit r.Descr)).map escapeICMPRecord)
  | [] => rfl
  | r :: rs => by
    by_cases hf : icmpFilterHit r.Descr
    · simp [List.filter_cons, hf, escapeICMPRecord_of_hit r hf, icmpConstEntries,
        zeroCanonICMP, icmpConstEntries_filter_hit rs]
    · simp only [List.map_cons, List.filter_cons, hf, Bool.not_false, if_pos]
      simp [icmpConstEntries, icmpConstEntries_filter_hit rs]

/-- Filter-hit records contribute nothing to the emitted lookup table. -/
theorem icmpTypesEntries_filter_hit : ∀ rs : List icmpRecord,
    icmpTypesEntries (rs.map escapeICMPRecord) =
      icmpTypesEntries
        ((rs.filter (fun r => !icmpFilterHit r.Descr)).map escapeICMPRecord)
  | [] => rfl
  | r :: rs => by
    by_cases hf : icmpFilterHit r.Descr
    · simp [List.filter_cons, hf, escapeICMPRecord_of_hit r hf, icmpTypesEntries,
        zeroCanonICMP, icmpTypesEntries_filter_hit rs]
    · simp only [List.map_cons, List.filter_cons, hf, Bool.not_false, if_pos]
      simp [icmpTypesEntries, icmpTypesEntries_filter_hit rs]

/-- A registry fetch stage that fails yields a non-empty stderr line. -/
theorem runRegistry_fails {α : Type} (url : List Char) (pt : α → List Char)
    (fo : FetchOutcome α) (h : fetchFails fo = true) :
    ∃ m, runRegistry url pt fo = .error m ∧ m ≠ [] := by
  cases fo with
  | transportError m => exact ⟨m ++ ['\n'], rfl, by simp⟩
  | response st dec =>
    by_cases hst : st = 200
    · subst hst
      cases dec with
      | error m => exact ⟨m ++ ['\n'], by simp [runRegistry], by simp⟩
      | ok a => simp [fetchFails] at h
    · exact ⟨"got HTTP status code ".data ++ natChars st ++ " for ".data ++
        url ++ ['\n'], by simp [runRegistry, hst], by simp⟩

/-- A registry fetch stage that does not fail is a 200 response carrying a
successfully decoded document. -/
theorem runRegistry_ok {α : Type} (url : List Char) (pt : α → List Char)
    (fo : FetchOutcome α) (h : fetchFails fo = false) :
    ∃ a, fo = FetchOutcome.response 200 (Except.ok a) ∧
      runRegistry url pt fo = .ok (pt a) := by
  cases fo with
  | transportError m => simp [fetchFails] at h
  | response st dec =>
    by_cases hst : st = 200
    · subst hst
      cases dec with
      | error m => simp [fetchFails] at h
      | ok a => exact ⟨a, rfl, by simp [runRegistry]⟩
    · simp [fetchFails, hst] at h

/-!
Claim theorems.
-/

/-- C1 (counterexample): the claim that every value string parses as a
non-negative integer with zero as the only fallback fails on the code: the
value string "-5" parses to the negative value -5, and a numeral
overflowing the 64-bit range parses to the clamped maximum, not zero. -/
theorem c1_nonnegative_default_counterexample :
    icpBadValues.escape =
      [⟨"Echo".data, "Echo".data, -5⟩,
       ⟨"Timestamp".data, "Timestamp".data, 9223372036854775807⟩] ∧
    (-5 : Int) < 0 ∧ (9223372036854775807 : Int) ≠ 0 := by
  exact ⟨by decide, by decide, by decide⟩

/-- C1 (amended): for every raw record, the value string is parsed as a
signed integer: a string that is not an optional sign followed by digits
yields zero with no fatal error, every parsed value lies in the 64-bit
integer range (overflow is clamped, not zeroed), and both canonicalizers
store exactly the Atoi result. -/
theorem c1_value_parsing_amended (s : List Char) (pr : icmpRecord)
    (qr : protoRecord) (hf : icmpFilterHit pr.Descr = false) :
    (intSyntaxOk s = false → goAtoi s = 0) ∧
    (intMin64 ≤ goAtoi s ∧ goAtoi s ≤ intMax64) ∧
    (escapeICMPRecord pr).Value = goAtoi pr.Value ∧
    (escapeProtoRecord qr).Value = goAtoi qr.Value := by
  refine ⟨fun hbad => goAtoi_of_bad_syntax s hbad, goAtoi_bounds s, ?_, rfl⟩
  simp [escapeICMPRecord, hf]

/-- C1 (witness): the amended claim instantiated at the value string "abc",
which parses to zero. -/
theorem c1_value_parsing_amended_witness :
    ((intSyntaxOk ("abc".data) = false → goAtoi ("abc".data) = 0) ∧
     (intMin64 ≤ goAtoi ("abc".data) ∧ goAtoi ("abc".data) ≤ intMax64) ∧
     (escapeICMPRecord ⟨"abc".data, "Echo".data⟩).Value = goAtoi ("abc".data) ∧
     (escapeProtoRecord ⟨"abc".data, "HMP".data, []⟩).Value = goAtoi ("abc".data)) ∧
    goAtoi ("abc".data) = 0 :=
  ⟨c1_value_parsing_amended ("abc".data) ⟨"abc".data, "Echo".data⟩
    ⟨"abc".data, "HMP".data, []⟩ (by decide), by decide⟩

/-- C2 (counterexample): the claim that the canonical identifier equals the
sequential application of the eight rewrites fails on the code: for the
description "MessagMessageses" (which passes the placeholder filter) the
program computes "Messages", while the sequential rewrites yield "s". -/
theorem c2_sequential_rewrites_counterexample :
    icmpFilterHit ("MessagMessageses".data) = false ∧
    icpMessag.escape = [⟨"MessagMessageses".data, "Messages".data, 1⟩] ∧
    seqRewrite icmpReplacer (trimSpace (joinLinesICMP ("MessagMessageses".data))) =
      "s".data ∧
    ("Messages".data : List Char) ≠ "s".data := by
  exact ⟨by decide, by decide, by decide, by decide⟩

/-- C2 (amended): for every ICMP raw record that passes the placeholder
filter, the canonical identifier equals a single left-to-right scan of the
trimmed, space-joined description with the eight listed rules: at each
position the first rule in list order whose pattern matches is applied,
replacement text is not rescanned, and scanning resumes after the matched
pattern. -/
theorem c2_single_pass_amended (icp : icmpv4Parameters)
    (reg : icmpSubRegistry)
    (h : icp.Registries.find? icmpTypeRegPred = some reg)
    (pr : icmpRecord) (hpr : pr ∈ reg.Records)
    (hflt : icmpFilterHit pr.Descr = false) :
    escapeICMPRecord pr ∈ icp.escape ∧
    (escapeICMPRecord pr).Descr =
      replaceGo icmpReplacer (trimSpace (joinLinesICMP pr.Descr)) := by
  constructor
  · simp only [icmpv4Parameters.escape, h]
    exact List.mem_map_of_mem _ hpr
  · simp [escapeICMPRecord, hflt]

/-- C2 (witness): the amended claim at the spec example record, whose
identifier evaluates to "DestinationUnreachable". -/
theorem c2_single_pass_amended_witness :
    (escapeICMPRecord ⟨"3".data, "Destination Unreachable".data⟩ ∈
        icpDestUnreach.escape ∧
     (escapeICMPRecord ⟨"3".data, "Destination Unreachable".data⟩).Descr =
       replaceGo icmpReplacer
         (trimSpace (joinLinesICMP ("Destination Unreachable".data)))) ∧
    (escapeICMPRecord ⟨"3".data, "Destination Unreachable".data⟩).Descr =
      "DestinationUnreachable".data :=
  ⟨c2_single_pass_amended icpDestUnreach regDestUnreach (by decide) _
    (by decide) (by decide), by decide⟩

/-- C3 (counterexample): the claim that any case-mixture of "type" in a
sub-registry title matches fails on the code: a document whose only
sub-registry is titled "TYPE codes" (which contains "type"
case-insensitively) selects no sub-registry and canonicalizes to nothing. -/
theorem c3_case_insensitive_counterexample :
    containsSub (toLowerGo ("TYPE codes".data)) ("type".data) = true ∧
    icpUpperType.Registries.find? icmpTypeRegPred = none ∧
    icpUpperType.escape = [] := by
  exact ⟨by decide, by decide, by decide⟩

/-- C3 (amended): the ICMP canonicalizer selects, by linear scan with
first-match semantics, the first sub-registry whose title contains "Type"
or "type" (exactly these two casings): whenever the registry list splits as
a prefix of non-matching sub-registries followed by a matching one, that
one is selected. -/
theorem c3_first_match_amended (icp : icmpv4Parameters)
    (pre : List icmpSubRegistry) (reg : icmpSubRegistry)
    (post : List icmpSubRegistry)
    (hsplit : icp.Registries = pre ++ reg :: post)
    (hpre : ∀ r ∈ pre, icmpTypeRegPred r = false)
    (hreg : icmpTypeRegPred reg = true) :
    icp.escape = reg.Records.map escapeICMPRecord := by
  have h : icp.Registries.find? icmpTypeRegPred = some reg := by
    rw [hsplit]
    exact find?_append_first _ reg post pre hpre hreg
  simp [icmpv4Parameters.escape, h]

/-- C3 (witness): the amended claim at a document whose matching
sub-registry follows a non-matching one. -/
theorem c3_first_match_amended_witness :
    icpTwoRegs.escape = regTypeEcho.Records.map escapeICMPRecord :=
  c3_first_match_amended icpTwoRegs [⟨"Code Fields".data, []⟩] regTypeEcho []
    (by decide) (by decide) (by decide)

/-- C4 (counterexample): the claim that any case-variant of "Experiment" is
excluded fails on the code: a record described "EXPERIMENT" (a case-variant
of "Experiment") is emitted both as a constant and as a lookup entry. -/
theorem c4_case_variant_counterexample :
    containsSub (toLowerGo ("EXPERIMENT".data)) ("experiment".data) = true ∧
    icmpConstEntries icpExperimentCaps.escape =
      [⟨"EXPERIMENT".data, "EXPERIMENT".data, 1⟩] ∧
    icmpTypesEntries icpExperimentCaps.escape = [(1, "experiment".data)] := by
  exact ⟨by decide, by decide, by decide⟩

/-- C4 (amended): records whose description contains "Reserved",
"Unassigned", "Deprecated", "Experiment", or "experiment" (case-sensitive;
other case-variants are not filtered) contribute nothing to the emitted
constant block or lookup table: both equal the emission over only the
records that pass the filter. -/
theorem c4_placeholder_filter_amended (icp : icmpv4Parameters)
    (reg : icmpSubRegistry)
    (h : icp.Registries.find? icmpTypeRegPred = some reg) :
    icmpConstEntries icp.escape =
      icmpConstEntries
        ((reg.Records.filter (fun r => !icmpFilterHit r.Descr)).map
          escapeICMPRecord) ∧
    icmpTypesEntries icp.escape =
      icmpTypesEntries
        ((reg.Records.filter (fun r => !icmpFilterHit r.Descr)).map
          escapeICMPRecord) := by
  have hesc : icp.escape = reg.Records.map escapeICMPRecord := by
    simp [icmpv4Parameters.escape, h]
  rw [hesc]
  exact ⟨icmpConstEntries_filter_hit reg.Records,
    icmpTypesEntries_filter_hit reg.Records⟩

/-- C4 (witness): the amended claim at a document mixing a "Reserved"
record with a plain one; only the plain record is emitted. -/
theorem c4_placeholder_filter_amended_witness :
    (icmpConstEntries icpReservedMix.escape =
      icmpConstEntries
        ((regReservedMix.Records.filter (fun r => !icmpFilterHit r.Descr)).map
          escapeICMPRecord) ∧
     icmpTypesEntries icpReservedMix.escape =
      icmpTypesEntries
        ((regReservedMix.Records.filter (fun r => !icmpFilterHit r.Descr)).map
          escapeICMPRecord)) ∧
    icmpConstEntries icpReservedMix.escape = [⟨"Echo".data, "Echo".data, 8⟩] :=
  ⟨c4_placeholder_filter_amended icpReservedMix regReservedMix (by decide),
   by decide⟩

/-- C5 (confirmed): for every decoded protocol registry, the record list
the emitter iterates over is the synthetic IP record prepended to the
canonicalized set, and since its name "IP" is non-empty it is also the
first emitted constant; its fields are exactly the synthetic values. -/
theorem c5_synthetic_ip_first (pn : protocolNumbers) :
    protocolPrs pn = ipPseudoRecord :: pn.escape ∧
    (protoConstEntries (protocolPrs pn)).head? = some ipPseudoRecord ∧
    ipPseudoRecord =
      ⟨[], "IP".data, "IPv4 encapsulation, pseudo protocol number".data, 0⟩ := by
  have hni : ipPseudoRecord.Name.isEmpty = false := by decide
  refine ⟨rfl, ?_, by decide⟩
  show (protoConstEntries (ipPseudoRecord :: pn.escape)).head? = some ipPseudoRecord
  simp [protoConstEntries, hni]

/-- C6 (confirmed): the lookup table contains, for exactly the emitted
records, the mapping from numeric value to lowercased original
description; the spec example record yields identifier
"DestinationUnreachable", constant value 3, and lookup entry
3 with text "destination unreachable". -/
theorem c6_lookup_matches_constants :
    (∀ prs : List canonICMPv4ParamRecord,
      icmpTypesEntries prs =
        (icmpConstEntries prs).map
          (fun pr => (pr.Value, toLowerGo pr.OrigDescr))) ∧
    icmpConstEntries icpDestUnreach.escape =
      [⟨"Destination Unreachable".data, "DestinationUnreachable".data, 3⟩] ∧
    icmpTypesEntries icpDestUnreach.escape =
      [(3, "destination unreachable".data)] :=
  ⟨icmpTypesEntries_eq_map, by decide, by decide⟩

/-- C7 (confirmed): records are emitted only with non-empty canonical
identifier (ICMP description, protocol name), while filtered placeholder
records remain in the canonicalizer output as zero-valued entries: the
output keeps one entry per raw record, and at every filtered index it holds
the zero record. -/
theorem c7_empty_identifier_dropped_at_emission :
    (∀ prs : List canonICMPv4ParamRecord,
      ∀ e ∈ icmpConstEntries prs, e.Descr ≠ []) ∧
    (∀ prs : List canonProtocolRecord,
      ∀ e ∈ protoConstEntries prs, e.Name ≠ []) ∧
    (∀ (icp : icmpv4Parameters) (reg : icmpSubRegistry),
      icp.Registries.find? icmpTypeRegPred = some reg →
      icp.escape.length = reg.Records.length ∧
      (∀ i : Nat, icmpFilterHit ((reg.Records.getD i ⟨[], []⟩).Descr) = true →
        icp.escape.getD i zeroCanonICMP = zeroCanonICMP)) := by
  refine ⟨mem_icmpConstEntries, mem_protoConstEntries, ?_⟩
  intro icp reg h
  have hesc : icp.escape = reg.Records.map escapeICMPRecord := by
    simp [icmpv4Parameters.escape, h]
  have hzero : zeroCanonICMP = escapeICMPRecord ⟨[], []⟩ := by decide
  constructor
  · simp [hesc]
  · intro i hfil
    have h1 : icp.escape.getD i zeroCanonICMP =
        escapeICMPRecord (reg.Records.getD i ⟨[], []⟩) := by
      rw [hesc, hzero]
      exact getD_map_comm escapeICMPRecord ⟨[], []⟩ reg.Records i
    rw [h1, escapeICMPRecord_of_hit _ hfil]

/-- C7 (witness): the third part instantiated at a document whose first
record is "Reserved": the canonicalizer output keeps both entries and holds
the zero record at index 0, yet only the plain record is emitted. -/
theorem c7_empty_identifier_dropped_witness :
    icpReservedMix.escape.length = regReservedMix.Records.length ∧
    icpReservedMix.escape.getD 0 zeroCanonICMP = zeroCanonICMP := by
  have h := c7_empty_identifier_dropped_at_emission.2.2 icpReservedMix
    regReservedMix (by decide)
  exact ⟨h.1, h.2 0 (by decide)⟩

/-- C8 (confirmed): any fetch error, non-success HTTP status, decode error,
or a formatter error on the run's actual assembled buffer makes the run
exit with status 1, writing nothing to stdout and a non-empty report to
stderr; a run exits 0 only when both registry stages succeeded, and the
only exit codes are 0 and 1. -/
theorem c8_fail_fast (icmpIn : FetchOutcome icmpv4Parameters)
    (protoIn : FetchOutcome protocolNumbers)
    (fmtSrc : List Char → Except (List Char) (List Char)) :
    ((mainRun icmpIn protoIn fmtSrc).exitCode = 0 ∨
      (mainRun icmpIn protoIn fmtSrc).exitCode = 1) ∧
    ((mainRun icmpIn protoIn fmtSrc).exitCode = 1 →
      (mainRun icmpIn protoIn fmtSrc).stdout = [] ∧
      (mainRun icmpIn protoIn fmtSrc).stderr ≠ []) ∧
    (fetchFails icmpIn = true → (mainRun icmpIn protoIn fmtSrc).exitCode = 1) ∧
    (fetchFails protoIn = true → (mainRun icmpIn protoIn fmtSrc).exitCode = 1) ∧
    (∀ (icp : icmpv4Parameters) (pn : protocolNumbers) (m : List Char),
      icmpIn = FetchOutcome.response 200 (Except.ok icp) →
      protoIn = FetchOutcome.response 200 (Except.ok pn) →
      fmtSrc (genHeader ++ parseICMPText icp ++ ['\n'] ++
        parseProtoText pn ++ ['\n']) = Except.error m →
      (mainRun icmpIn protoIn fmtSrc).exitCode = 1) ∧
    ((mainRun icmpIn protoIn fmtSrc).exitCode = 0 →
      fetchFails icmpIn = false ∧ fetchFails protoIn = false) := by
  cases hic : fetchFails icmpIn with
  | true =>
    rcases runRegistry_fails icmpURL parseICMPText icmpIn hic with ⟨m, hm, hmne⟩
    have hmain : mainRun icmpIn protoIn fmtSrc = ⟨1, [], m⟩ := by
      simp [mainRun, hm]
    rw [hmain]
    exact ⟨Or.inr rfl, fun _ => ⟨rfl, hmne⟩, fun _ => rfl, fun _ => rfl,
      fun _ _ _ _ _ _ => rfl, fun h0 => by simp at h0⟩
  | false =>
    rcases runRegistry_ok icmpURL parseICMPText icmpIn hic with ⟨icp, hiceq, hok1⟩
    cases hpc : fetchFails protoIn with
    | true =>
      rcases runRegistry_fails protoURL parseProtoText protoIn hpc with
        ⟨m, hm, hmne⟩
      have hmain : mainRun icmpIn protoIn fmtSrc = ⟨1, [], m⟩ := by
        simp [mainRun, hok1, hm]
      rw [hmain]
      exact ⟨Or.inr rfl, fun _ => ⟨rfl, hmne⟩, fun _ => rfl, fun _ => rfl,
        fun _ _ _ _ _ _ => rfl, fun h0 => by simp at h0⟩
    | false =>
      rcases runRegistry_ok protoURL parseProtoText protoIn hpc with
        ⟨pn, hpceq, hok2⟩
      cases hfmt : fmtSrc (genHeader ++ parseICMPText icp ++ ['\n'] ++
          parseProtoText pn ++ ['\n']) with
      | error m =>
        have hmain : mainRun icmpIn protoIn fmtSrc = ⟨1, [], m ++ ['\n']⟩ := by
          simp only [mainRun, hok1, hok2]
          split
          · rename_i m2 heq
            rw [hfmt] at heq
            cases heq
            rfl
          · rename_i out heq
            rw [hfmt] at heq
            cases heq
        rw [hmain]
        exact ⟨Or.inr rfl, fun _ => ⟨rfl, by simp⟩, fun _ => rfl, fun _ => rfl,
          fun _ _ _ _ _ _ => rfl, fun h0 => by simp at h0⟩
      | ok out =>
        have hmain : mainRun icmpIn protoIn fmtSrc = ⟨0, out, []⟩ := by
          simp only [mainRun, hok1, hok2]
          split
          · rename_i m2 heq
            rw [hfmt] at heq
            cases heq
          · rename_i out2 heq
            rw [hfmt] at heq
            cases heq
            rfl
        rw [hmain]
        refine ⟨Or.inl rfl, ?_, ?_, ?_, ?_, ?_⟩
        · intro h1
          simp at h1
        · intro ht
          exact Bool.noConfusion ht
        · intro ht
          exact Bool.noConfusion ht
        · intro icp2 pn2 m heq1 heq2 h3
          rw [hiceq] at heq1
          cases heq1
          rw [hpceq] at heq2
          cases heq2
          rw [hfmt] at h3
          cases h3
        · intro _
          exact ⟨rfl, rfl⟩

/-- C8 (witness): a failing ICMP fetch exits with status 1, an empty stdout
and a non-empty stderr; a formatter error on the assembled buffer of an
otherwise successful run also exits with status 1 and an empty stdout. -/
theorem c8_fail_fast_witness :
    ((mainRun fetchErrICMP okProto fmtID).exitCode = 1 ∧
     (mainRun fetchErrICMP okProto fmtID).stdout = [] ∧
     (mainRun fetchErrICMP okProto fmtID).stderr ≠ []) ∧
    ((mainRun okICMP okProto fmtFail).exitCode = 1 ∧
     (mainRun okICMP okProto fmtFail).stdout = [] ∧
     (mainRun okICMP okProto fmtFail).stderr ≠ []) := by
  have h := c8_fail_fast fetchErrICMP okProto fmtID
  have h1 : (mainRun fetchErrICMP okProto fmtID).exitCode = 1 :=
    h.2.2.1 (by decide)
  have g := c8_fail_fast okICMP okProto fmtFail
  have g1 : (mainRun okICMP okProto fmtFail).exitCode = 1 :=
    g.2.2.2.2.1 icpNoType pnEmpty ("format error".data) rfl rfl rfl
  exact ⟨⟨h1, (h.2.1 h1).1, (h.2.1 h1).2⟩, ⟨g1, (g.2.1 g1).1, (g.2.1 g1).2⟩⟩

/-- C9 (confirmed): a decoded ICMP document with no sub-registry whose
title contains "Type" or "type" canonicalizes to the empty record set, the
emitted block has zero constants and an empty lookup table around the usual
headers, and a run over such a document still exits 0. -/
theorem c9_no_type_registry_success (icp : icmpv4Parameters)
    (pn : protocolNumbers)
    (h : ∀ r ∈ icp.Registries, icmpTypeRegPred r = false) :
    icp.escape = [] ∧
    icmpConstEntries icp.escape = [] ∧
    icmpTypesEntries icp.escape = [] ∧
    parseICMPText icp =
      headerComment icp.Title icp.Updated ++ "const (\n".data ++ ")\n\n".data ++
        headerComment icp.Title icp.Updated ++
        "var icmpTypes = map[ICMPType]string\x7b\n".data ++ "\x7d\n".data ∧
    (mainRun (.response 200 (.ok icp)) (.response 200 (.ok pn))
      Except.ok).exitCode = 0 := by
  have hfind : icp.Registries.find? icmpTypeRegPred = none := by
    rw [List.find?_eq_none]
    intro x hx
    simp [h x hx]
  have hesc : icp.escape = [] := by
    simp [icmpv4Parameters.escape, hfind]
  refine ⟨hesc, by rw [hesc]; rfl, by rw [hesc]; rfl, ?_, ?_⟩
  · simp [parseICMPText, hesc, icmpConstText, icmpTypesText]
  · simp [mainRun, runRegistry]

/-- C9 (witness): the claim at a concrete document whose only sub-registry
is titled "Code Fields". -/
theorem c9_no_type_registry_success_witness :
    icpNoType.escape = [] ∧
    icmpConstEntries icpNoType.escape = [] ∧
    icmpTypesEntries icpNoType.escape = [] ∧
    parseICMPText icpNoType =
      headerComment icpNoType.Title icpNoType.Updated ++ "const (\n".data ++
        ")\n\n".data ++ headerComment icpNoType.Title icpNoType.Updated ++
        "var icmpTypes = map[ICMPType]string\x7b\n".data ++ "\x7d\n".data ∧
    (mainRun (.response 200 (.ok icpNoType)) (.response 200 (.ok pnEmpty))
      Except.ok).exitCode = 0 :=
  c9_no_type_registry_success icpNoType pnEmpty (by decide)

/-- C10 (confirmed): the two protocol name exceptions are matched against
the raw, untrimmed name; every record whose raw name is neither exception
gets the generic replacement of the trimmed name, so a name equal to
"manet" only after trimming yields "manet", not "MANET". -/
theorem c10_untrimmed_exception_match (pn : protocolNumbers)
    (pr : protoRecord) (hpr : pr ∈ pn.Records)
    (h1 : pr.Name ≠ "ISIS over IPv4".data) (h2 : pr.Name ≠ "manet".data) :
    escapeProtoRecord pr ∈ pn.escape ∧
    (escapeProtoRecord pr).Name = replaceGo protoReplacer (trimSpace pr.Name) := by
  constructor
  · exact List.mem_map_of_mem _ hpr
  · simp [escapeProtoRecord, h1, h2]

/-- C10 (witness): the claim at the record named " manet " (spaces
around), whose canonical name evaluates to "manet", while the exact name
"manet" still maps to "MANET". -/
theorem c10_untrimmed_exception_match_witness :
    (escapeProtoRecord prManetSpaced ∈ pnManet.escape ∧
     (escapeProtoRecord prManetSpaced).Name =
       replaceGo protoReplacer (trimSpace prManetSpaced.Name)) ∧
    (escapeProtoRecord prManetSpaced).Name = "manet".data ∧
    (escapeProtoRecord ⟨"138".data, "manet".data, []⟩).Name = "MANET".data :=
  ⟨c10_untrimmed_exception_match pnManet prManetSpaced (by decide) (by decide)
    (by decide), by decide, by decide⟩
